import Mathlib

/-!
Shallow embedding of the `bash-builtins` runtime bridge, translated from the
repository sources:

* `bash_builtins_macro/src/metadata_proc_macro.rs` — the generated lifecycle
  entry points (`load`, the builtin call function, `unload`) around a global
  mutex-protected store with an atomic init flag;
* `src/errors.rs` — the `Error` type with `print_on_return` and `exit_code`;
* `src/ffi.rs` — exit-code constants;
* `bash_builtins_macro/src/options_derive_macro.rs` and `src/convert.rs` —
  the generated getopt parser string and payload decoding;
* `src/args.rs` — the argument cursor and its one-shot getopt reset;
* `src/variables/dynvars.rs` — the dynamic-variable read trampoline;
* `src/variables/arrays.rs` — the version probe and indexed-array iterator;
* `src/variables/assoc.rs` — `assoc_get` and its bounded key comparison.

Machine integers (`c_int`) are modelled as `Int`; byte strings as `List Nat`;
heap allocations as explicit identifier/content pairs.
-/

namespace BashBuiltins

/-! ### Errors (`src/errors.rs`, `src/ffi.rs`) -/

/-- `ffi::exit::EX_USAGE` (src/ffi.rs line 198). -/
def EX_USAGE : Int := 258

/-- `ffi::exit::EXECUTION_FAILURE` (src/ffi.rs line 189). -/
def EXECUTION_FAILURE : Int := 1

/-- The `Error` enum from `src/errors.rs`. The boxed payload of
`GenericError` is modelled by its displayable message. -/
inductive Error where
  | Usage : Error
  | ExitCode : Int → Error
  | GenericError : String → Error
deriving DecidableEq

/-- `Error::print_on_return` (src/errors.rs lines 87-90):
`let ignore = matches!(self, Error::Usage | Error::ExitCode(_)); !ignore`. -/
def Error.print_on_return (e : Error) : Bool :=
  let ignore :=
    match e with
    | Error.Usage => true
    | Error.ExitCode _ => true
    | _ => false
  !ignore

/-- `Error::exit_code` (src/errors.rs lines 94-100). -/
def Error.exit_code : Error → Int
  | Error.Usage => EX_USAGE
  | Error.ExitCode s => s
  | _ => EXECUTION_FAILURE

/-- Spec-side classifier: is the error the `GenericError` variant?  Used to
state the printing policy of claim C7 independently of `print_on_return`. -/
def isGenericError : Error → Bool
  | Error.GenericError _ => true
  | _ => false

/-! ### Lifecycle state (`metadata_proc_macro.rs`)

The generated code keeps, per builtin:
* an `AtomicBool` init flag (`__bash_builtin__state_init_<NAME>`);
* a `static mut STATE : MaybeUninit<Mutex<Option<Box<dyn Builtin>>>>`.

A `Mutex` is modelled as its contents plus a poison flag.  `STATE` is
modelled as `Option (BMutex _)`, `none` standing for `MaybeUninit::uninit()`.
Assigning a fresh `MaybeUninit` value over an initialized one runs no drop
code, so the previous mutex contents are leaked; the model returns those
leaked values explicitly. -/

structure BMutex (α : Type) where
  contents : α
  poisoned : Bool
deriving DecidableEq

structure GlobalState (α : Type) where
  initFlag : Bool
  store : Option (BMutex (Option α))
deriving DecidableEq

/-- The state before `load` runs: flag `false`, `STATE` uninitialized. -/
def initialState {α : Type} : GlobalState α := ⟨false, none⟩

/-- State update of `#global_state()` (metadata_proc_macro.rs lines 135-148):
`if init.fetch_or(true) == false { STATE = MaybeUninit::new(Mutex::new(None)) }`. -/
def global_state_upd {α : Type} (g : GlobalState α) : GlobalState α :=
  if g.initFlag then g else ⟨true, some ⟨none, false⟩⟩

/-- Values leaked by the `STATE = MaybeUninit::new(..)` overwrite inside
`#global_state()`: overwriting a `MaybeUninit` drops nothing, so any instance
held by the previous mutex is leaked. -/
def global_state_leak {α : Type} (g : GlobalState α) : List α :=
  if g.initFlag then []
  else
    match g.store with
    | none => []
    | some m => m.contents.toList

/-- The mutex reference produced by `#global_state()`; after the update the
store is always initialized, the default is never consulted on those paths. -/
def mutexOf {α : Type} (g : GlobalState α) : BMutex (Option α) :=
  g.store.getD ⟨none, false⟩

/-- Diagnostics emitted by the generated entry points. -/
inductive LogMsg where
  | invalidInternalState : LogMsg
  | notInitialized : LogMsg
  | printedError : Error → LogMsg
  | loadError : LogMsg
deriving DecidableEq

/-- Result of one entry-point invocation: the new global state, the returned
`c_int`, the diagnostics, the instances dropped (release logic ran) and the
instances leaked (release logic did not run). -/
structure StepResult (α : Type) where
  state : GlobalState α
  code : Int
  logs : List LogMsg
  dropped : List α
  leaked : List α
deriving DecidableEq

/-- Outcome of running the user constructor inside `load`. -/
inductive CtorOutcome (α : Type) where
  | ok : α → CtorOutcome α
  | fail : CtorOutcome α
  | panicked : CtorOutcome α
deriving DecidableEq

/-- Outcome of `state.call(&mut args)` inside the builtin function. -/
inductive CallOutcome where
  | ok : CallOutcome
  | err : Error → CallOutcome
  | panicked : CallOutcome
deriving DecidableEq

/-- `<NAME>_builtin_load` (metadata_proc_macro.rs lines 152-162): acquire the
store (on a poisoned mutex: log `invalid internal state`, return 0); run the
constructor; store the boxed instance (dropping any previous one); return 1.
A `try_create` failure prints a diagnostic and returns 0 with the store
untouched; a constructor panic poisons the mutex and yields 0 via
`unwrap_or(RETVAL_ERROR)`. -/
def load {α : Type} (g : GlobalState α) (c : CtorOutcome α) : StepResult α :=
  let g1 := global_state_upd g
  let lk := global_state_leak g
  let m := mutexOf g1
  if m.poisoned then
    ⟨g1, 0, [LogMsg.invalidInternalState], [], lk⟩
  else
    match c with
    | CtorOutcome.ok a =>
        ⟨{ g1 with store := some ⟨some a, false⟩ }, 1, [], m.contents.toList, lk⟩
    | CtorOutcome.fail =>
        ⟨g1, 0, [LogMsg.loadError], [], lk⟩
    | CtorOutcome.panicked =>
        ⟨{ g1 with store := some ⟨m.contents, true⟩ }, 0, [], [], lk⟩

/-- `__bash_builtin__func_<NAME>` (metadata_proc_macro.rs lines 185-214):
acquire the store (on a poisoned mutex: log `invalid internal state`, return
`RETVAL_ERROR = 1` without touching the instance); with a stored instance run
its `call`: `Ok` returns 0; `Err(e)` prints when `print_on_return` and
returns `e.exit_code()`; a panic poisons the mutex and `unwrap_or(101)`
yields 101.  With an empty store: log `builtin not initialized`, return 1. -/
def call {α : Type} (g : GlobalState α) (o : CallOutcome) : StepResult α :=
  let g1 := global_state_upd g
  let lk := global_state_leak g
  let m := mutexOf g1
  if m.poisoned then
    ⟨g1, 1, [LogMsg.invalidInternalState], [], lk⟩
  else
    match m.contents with
    | some _ =>
        match o with
        | CallOutcome.ok => ⟨g1, 0, [], [], lk⟩
        | CallOutcome.err e =>
            ⟨g1, e.exit_code,
             if e.print_on_return then [LogMsg.printedError e] else [], [], lk⟩
        | CallOutcome.panicked =>
            ⟨{ g1 with store := some ⟨m.contents, true⟩ }, 101, [], [], lk⟩
    | none => ⟨g1, 1, [LogMsg.notInitialized], [], lk⟩

/-- `<NAME>_builtin_unload` (metadata_proc_macro.rs lines 166-183): first
stores `false` into the init flag, then calls `#global_state()` — which,
seeing the flag cleared, overwrites `STATE` with a fresh `Mutex::new(None)`
(leaking the previous contents) and sets the flag back to `true` — and only
then locks: the `Ok` arm assigns `None` over the fresh (already empty) store,
the poisoned arm would forget the taken value. -/
def unload {α : Type} (g : GlobalState α) : StepResult α :=
  let g1 : GlobalState α := { g with initFlag := false }
  let g2 := global_state_upd g1
  let lk := global_state_leak g1
  let m := mutexOf g2
  if m.poisoned then
    ⟨{ g2 with store := some ⟨none, m.poisoned⟩ }, 0, [], [],
     lk ++ m.contents.toList⟩
  else
    ⟨{ g2 with store := some ⟨none, false⟩ }, 0, [], m.contents.toList, lk⟩

/-- Abstract lifecycle phase of the store. -/
inductive Phase where
  | unloaded : Phase
  | loaded : Phase
  | poisoned : Phase
deriving DecidableEq

def phase {α : Type} (g : GlobalState α) : Phase :=
  match g.store with
  | none => Phase.unloaded
  | some m =>
      if m.poisoned then Phase.poisoned
      else
        match m.contents with
        | some _ => Phase.loaded
        | none => Phase.unloaded

/-- Host-driven lifecycle events. -/
inductive Event (α : Type) where
  | loadEv : CtorOutcome α → Event α
  | callEv : CallOutcome → Event α
  | unloadEv : Event α
deriving DecidableEq

def step {α : Type} (g : GlobalState α) : Event α → StepResult α
  | Event.loadEv c => load g c
  | Event.callEv o => call g o
  | Event.unloadEv => unload g

def run {α : Type} (g : GlobalState α) : List (Event α) → GlobalState α
  | [] => g
  | e :: es => run (step g e).state es

/-- States reachable from the pristine (pre-load) state. -/
def Reachable {α : Type} (g : GlobalState α) : Prop :=
  ∃ es : List (Event α), run initialState es = g

/-- Shape of every post-step state: the init flag is set and `STATE` is
initialized (every entry point goes through `#global_state()`). -/
def StoreNorm {α : Type} (g : GlobalState α) : Prop :=
  g.initFlag = true ∧ ∃ m, g.store = some m

/-! ### Option schema engine
(`bash_builtins_macro/src/options_derive_macro.rs`, `src/convert.rs`) -/

namespace Opts

/-- The declared payload target type of an option, as far as the
`FromWordPointer::OPTSTR_ARGUMENT` constant can see it: either `Option<T>`
(the only impl overriding the constant, src/convert.rs line 54) or any other
target type using the default (src/convert.rs line 33). -/
inductive ArgTy where
  | plain : ArgTy
  | opt : ArgTy → ArgTy
deriving DecidableEq

/-- `FromWordPointer::OPTSTR_ARGUMENT`: `b':'` (58) by default, `b';'` (59)
for the `Option<T>` impl. -/
def OPTSTR_ARGUMENT : ArgTy → Nat
  | ArgTy.opt _ => 59
  | ArgTy.plain => 58

/-- `VariantOption` (options_derive_macro.rs lines 10-14): the `#[opt = c]`
flag character and the optional payload type of the enum variant. -/
structure VariantOption where
  option : Char
  argument_type : Option ArgTy
deriving DecidableEq

/-- The per-variant bytes pushed by the `options_string` loop
(options_derive_macro.rs lines 61-79): the flag byte, then `OPTSTR_ARGUMENT`
of the payload type when the variant carries one. -/
def options_entries : List VariantOption → List Nat
  | [] => []
  | v :: vs =>
      match v.argument_type with
      | none => v.option.toNat :: options_entries vs
      | some t => v.option.toNat :: OPTSTR_ARGUMENT t :: options_entries vs

/-- The full generated `OPTIONS` array: the loop bytes followed by the final
`opts.push(quote! { 0 })` terminator. -/
def options_string (vs : List VariantOption) : List Nat :=
  options_entries vs ++ [0]

/-- Spec-side description of one descriptor's contribution: its flag
character followed by `':'` when the payload is required (not
`Option`-wrapped) or `';'` when it is optional. -/
def specDescriptorBytes (v : VariantOption) : List Nat :=
  v.option.toNat ::
    (match v.argument_type with
     | none => []
     | some (ArgTy.opt _) => [59]
     | some ArgTy.plain => [58])

/-- Spec-side parser string: the concatenation of the descriptor
contributions in descriptor order. -/
def specConcat (vs : List VariantOption) : List Nat :=
  (vs.map specDescriptorBytes).flatten

/-- `char::is_ascii_alphanumeric`, the flag constraint checked by
`parse_variant` (options_derive_macro.rs line 191). -/
def isAsciiAlphanumeric (c : Char) : Bool :=
  (48 ≤ c.toNat && c.toNat ≤ 57) || (65 ≤ c.toNat && c.toNat ≤ 90) ||
    (97 ≤ c.toNat && c.toNat ≤ 122)

end Opts

/-! ### Value conversion (`src/convert.rs`) -/

namespace Conv

/-- Diagnostics emitted while decoding an option payload:
`log::missing_argument()` (via `sh_needarg`) or the
`error!("{:?}: {}", arg, e)` conversion-failure message. -/
inductive Diag where
  | missingArgument : Diag
  | convErrorMsg : List Nat → String → Diag
deriving DecidableEq

/-- Default `FromWordPointer::extract_value` (src/convert.rs lines 37-49):
an absent raw argument notifies the missing-argument facility and yields
`Error::Usage`; a present argument is decoded with `from_cstr`, a decode
failure printing one diagnostic and yielding `Error::Usage`.  The inner
conversion is abstracted as a function from the raw bytes to a value or a
displayable error. -/
def extract_value_default {α : Type} (from_cstr : List Nat → Except String α)
    (arg : Option (List Nat)) : List Diag × Except Error α :=
  match arg with
  | none => ([Diag.missingArgument], Except.error Error.Usage)
  | some a =>
      match from_cstr a with
      | Except.ok v => ([], Except.ok v)
      | Except.error e => ([Diag.convErrorMsg a e], Except.error Error.Usage)

/-- `extract_value` of the `Option<T>` impl (src/convert.rs lines 62-75):
an absent raw argument silently yields `Ok(None)`; a present argument is
decoded with the inner `T::from_cstr`, success wrapping in `Some`, failure
printing one diagnostic and yielding `Error::Usage`. -/
def extract_value_option {α : Type} (from_cstr : List Nat → Except String α)
    (arg : Option (List Nat)) : List Diag × Except Error (Option α) :=
  match arg with
  | none => ([], Except.ok none)
  | some a =>
      match from_cstr a with
      | Except.ok v => ([], Except.ok (some v))
      | Except.error e => ([Diag.convErrorMsg a e], Except.error Error.Usage)

end Conv

/-! ### Argument cursor (`src/args.rs`) -/

namespace ArgsCursor

/-- The process-global state touched by `Args::ensure_reset`
(src/args.rs lines 318-326): the host scan position (represented by the
count of `reset_internal_getopt()` invocations), `list_optarg` and
`list_optopt`. -/
structure GetoptGlobals where
  resetEvents : Nat
  list_optarg : Option (List Nat)
  list_optopt : Int
deriving DecidableEq

/-- The `Args` struct: only the `reset_pending` flag matters for the reset
discipline (the word list plays no role in it). -/
structure ArgsM where
  reset_pending : Bool
deriving DecidableEq

/-- `Args::new` (src/args.rs lines 116-121): `reset_pending: true`. -/
def ArgsM.new : ArgsM := ⟨true⟩

/-- `Args::ensure_reset` (src/args.rs lines 318-326): `mem::take` the flag;
when it was set, call `reset_internal_getopt()` and clear the two global
out-parameters. -/
def ensure_reset : ArgsM × GetoptGlobals → ArgsM × GetoptGlobals
  | (a, g) =>
      if a.reset_pending then
        (⟨false⟩,
         { resetEvents := g.resetEvents + 1, list_optarg := none,
           list_optopt := 0 })
      else (a, g)

/-- Public operations on an `Args` value. -/
inductive ArgsOp where
  | options : ArgsOp
  | rawArguments : ArgsOp
  | stringArguments : ArgsOp
  | pathArguments : ArgsOp
  | finishedOp : ArgsOp
  | noOptions : ArgsOp
  | isEmptyOp : ArgsOp
deriving DecidableEq

/-- Which operations invoke `ensure_reset`: `options` (line 144) and
`raw_arguments` (line 172) directly, `string_arguments` and
`path_arguments` through `raw_arguments`; `finished`, `no_options` and
`is_empty` do not. -/
def callsEnsureReset : ArgsOp → Bool
  | ArgsOp.options => true
  | ArgsOp.rawArguments => true
  | ArgsOp.stringArguments => true
  | ArgsOp.pathArguments => true
  | _ => false

/-- Effect of one operation on the reset discipline. -/
def applyOp (s : ArgsM × GetoptGlobals) (op : ArgsOp) : ArgsM × GetoptGlobals :=
  if callsEnsureReset op then ensure_reset s else s

def runOps (s : ArgsM × GetoptGlobals) : List ArgsOp → ArgsM × GetoptGlobals
  | [] => s
  | op :: ops => runOps (applyOp s op) ops

end ArgsCursor

/-! ### Dynamic variables (`src/variables/dynvars.rs`) -/

namespace DynVars

/-- Behaviour of the registered `get` handler for one invocation:
`Some(cstring)`, `None`, or a panic intercepted by `catch_unwind`. -/
inductive GetOutcome where
  | value : List Nat → GetOutcome
  | empty : GetOutcome
  | panicked : GetOutcome
deriving DecidableEq

/-- State visible to one `read_var` invocation (dynvars.rs lines 189-219):
the `STATE_INIT` flag; the table lookup for the variable's name together
with the handler's behaviour (`none` = no binding); the variable's backing
storage as an allocation id into an explicit heap of id/raw-bytes pairs;
the ids already freed; the next fresh allocation id; and the count of
`internal_error` notifications. -/
structure ReadState where
  stateInit : Bool
  binding : Option GetOutcome
  storeId : Nat
  heap : List (Nat × List Nat)
  freed : List Nat
  nextId : Nat
  internalErrors : Nat
deriving DecidableEq

/-- `read_var` (dynvars.rs lines 189-219): return untouched when
`STATE_INIT` is clear; run the table lookup and the `get` handler inside
`catch_unwind`; on a missing binding (`Ok(None)`) or an intercepted panic
(`Err`), notify `internal_error` and leave the storage untouched; otherwise
`free` the previous storage and install `CString::into_raw` of the returned
bytes (the bytes plus their NUL terminator), or `calloc(1, 1)` — a single
zero byte — when the handler returned `None`. -/
def read_var (st : ReadState) : ReadState :=
  if st.stateInit = false then st
  else
    match st.binding with
    | none => { st with internalErrors := st.internalErrors + 1 }
    | some GetOutcome.panicked => { st with internalErrors := st.internalErrors + 1 }
    | some (GetOutcome.value s) =>
        { st with
          freed := st.freed ++ [st.storeId]
          storeId := st.nextId
          heap := st.heap ++ [(st.nextId, s ++ [0])]
          nextId := st.nextId + 1 }
    | some GetOutcome.empty =>
        { st with
          freed := st.freed ++ [st.storeId]
          storeId := st.nextId
          heap := st.heap ++ [(st.nextId, [0])]
          nextId := st.nextId + 1 }

end DynVars

/-! ### Indexed arrays (`src/variables/arrays.rs`) -/

namespace Arrays

/-- `ffi::variables::ArrayElement` (src/ffi.rs lines 106-111), with the
`next`/`prev` pointers as heap identifiers. -/
structure ArrayElementM where
  ind : Int
  value : List Nat
  next : Nat
  prev : Nat

/-- `ffi::variables::Array` (src/ffi.rs lines 97-103); `head` and `lastref`
are heap identifiers of element nodes. -/
structure ArrayM where
  atype : Int
  max_index : Int
  num_elements : Int
  head : Nat
  lastref : Nat

/-- Host-owned element nodes, addressed by identifier. -/
def HeapA : Type := Nat → ArrayElementM

/-- The memoized probe state of `array_head` (arrays.rs lines 61-62):
the `static mut IS_5_0` value and whether the `Once` has run. -/
structure VersionProbe where
  is_5_0 : Bool
  initDone : Bool
deriving DecidableEq

/-- `shver.to_bytes().starts_with(b"5.0.")` (arrays.rs line 67);
`[53, 46, 48, 46]` are the bytes of `"5.0."`. -/
def starts_with_5_0 (shver : List Nat) : Bool :=
  List.isPrefixOf [53, 46, 48, 46] shver

/-- The `INIT.call_once` part of `array_head` (arrays.rs lines 64-71): probe
the host version string once; later calls reuse the memoized value. -/
def probe_version (p : VersionProbe) (shver : List Nat) : VersionProbe × Bool :=
  if p.initDone then (p, p.is_5_0)
  else
    let b := starts_with_5_0 shver
    (⟨b, true⟩, b)

/-- Field selection of `array_head` (arrays.rs lines 73-77): `lastref` for a
5.0 host, `head` otherwise. -/
def array_head (is50 : Bool) (a : ArrayM) : Nat :=
  if is50 then a.lastref else a.head

/-- `ArrayItemsIterator::next` (arrays.rs lines 105-114), iterated with
explicit fuel: stop when the cursor reaches the sentinel again, otherwise
yield `(ind, value)` of the current node and advance along `next`. -/
def array_items_from (h : HeapA) (sentinel : Nat) : Nat → Nat → List (Int × List Nat)
  | 0, _ => []
  | Nat.succ fuel, cur =>
      if cur = sentinel then []
      else ((h cur).ind, (h cur).value) :: array_items_from h sentinel fuel (h cur).next

/-- `ArrayItemsIterator::new` followed by the iteration (arrays.rs lines
87-114): start from the node after the sentinel head. -/
def array_items (h : HeapA) (is50 : Bool) (a : ArrayM) (fuel : Nat) :
    List (Int × List Nat) :=
  array_items_from h (array_head is50 a) fuel (h (array_head is50 a)).next

/-- The ring stored by the host: starting at `cur`, the identifiers `ids`
are linked in order by the `next` pointers, none of them is the sentinel,
and the last one links back to the sentinel. -/
def ring_chain (h : HeapA) (sentinel : Nat) : Nat → List Nat → Bool
  | cur, [] => cur == sentinel
  | cur, i :: is => cur == i && !(i == sentinel) && ring_chain h sentinel (h i).next is

/-- A concrete host ring for evaluation: sentinel node 10, elements at
indices 0 and 2 stored as nodes 1 and 2. -/
def exampleHeap : HeapA := fun n =>
  if n = 10 then ⟨-1, [], 1, 2⟩
  else if n = 1 then ⟨0, [65], 2, 10⟩
  else if n = 2 then ⟨2, [66], 10, 1⟩
  else ⟨0, [], 0, 0⟩

end Arrays

/-! ### Associative arrays (`src/variables/assoc.rs`) -/

namespace Assoc

/-- First byte of a region of C-string memory: the list's head, or the NUL
terminator once the list is exhausted. -/
def byte_head : List Nat → Nat
  | [] => 0
  | b :: _ => b

def byte_tail : List Nat → List Nat
  | [] => []
  | _ :: bs => bs

/-- `libc::strncmp(a, b, n)`: compare at most `n` bytes of two
NUL-terminated strings, stopping at the first difference or at a NUL byte;
the lists model the bytes before the terminator. -/
def strncmp : Nat → List Nat → List Nat → Int
  | 0, _, _ => 0
  | Nat.succ n, a, b =>
      let ca := byte_head a
      let cb := byte_head b
      if ca ≠ cb then (ca : Int) - (cb : Int)
      else if ca = 0 then 0
      else strncmp n (byte_tail a) (byte_tail b)

/-- `AssocItemsIterator` (assoc.rs lines 96-119): yield every
(key, value) pair bucket by bucket, each bucket's chain in order. -/
def assoc_items : List (List (List Nat × List Nat)) → List (List Nat × List Nat)
  | [] => []
  | b :: bs => b ++ assoc_items bs

/-- `ffi::variables::ATT_ARRAY` (src/ffi.rs line 71). -/
def ATT_ARRAY : Nat := 4

/-- `ffi::variables::ATT_ASSOC` (src/ffi.rs line 72). -/
def ATT_ASSOC : Nat := 64

/-- A shell variable record: its attribute bits and its value, which for an
associative array is the hash table's bucket array. -/
inductive VarValueM where
  | strV : List Nat → VarValueM
  | arrV : VarValueM
  | assocV : List (List (List Nat × List Nat)) → VarValueM
deriving DecidableEq

structure ShellVarM where
  attributes : Nat
  value : VarValueM
deriving DecidableEq

/-- `RawVariable::is_assoc` (src/variables/mod.rs lines 253-255). -/
def is_assoc (v : ShellVarM) : Bool := (v.attributes &&& ATT_ASSOC) != 0

/-- `ffi::find_variable`, over an explicit environment of named variables. -/
def find_variable (env : List (String × ShellVarM)) (name : String) :
    Option ShellVarM :=
  (env.find? (fun p => p.1 == name)).map Prod.snd

/-- `assoc_get` (assoc.rs lines 61-77): look the variable up by name,
require the associative attribute, then return a copy of the value of the
first visited pair whose stored key compares equal to the queried key under
`strncmp` bounded by the queried key's length.  (The value cast to a hash
table is meaningful only for an associative variable; on the other value
shapes the lookup yields nothing.) -/
def assoc_get (env : List (String × ShellVarM)) (name : String)
    (key : List Nat) : Option (List Nat) :=
  match find_variable env name with
  | none => none
  | some var =>
      if is_assoc var then
        match var.value with
        | VarValueM.assocV buckets =>
            ((assoc_items buckets).find?
              (fun kv => strncmp key.length key kv.1 == 0)).map Prod.snd
        | _ => none
      else none

end Assoc

/-! ## Theorems -/

/-! ### Lifecycle invariants -/

theorem step_norm {α : Type} (g : GlobalState α) (e : Event α)
    (h : g = initialState ∨ StoreNorm g) : StoreNorm (step g e).state := by
  rcases h with h | ⟨hI, m, hs⟩
  · subst h
    cases e with
    | loadEv c =>
        cases c <;>
          simp [step, load, global_state_upd, mutexOf, initialState, StoreNorm]
    | callEv o =>
        cases o <;>
          simp [step, call, global_state_upd, mutexOf, initialState, StoreNorm]
    | unloadEv =>
        simp [step, unload, global_state_upd, mutexOf, initialState, StoreNorm]
  · cases e with
    | loadEv c =>
        cases c <;>
          simp only [step, load, global_state_upd, mutexOf, hI, hs, if_true,
            Option.getD_some, StoreNorm] <;>
          split <;> simp [hI, hs]
    | callEv o =>
        cases o <;>
          simp only [step, call, global_state_upd, mutexOf, hI, hs, if_true,
            Option.getD_some, StoreNorm] <;>
          split <;> (try split) <;> simp [hI, hs]
    | unloadEv =>
        simp [step, unload, global_state_upd, mutexOf, StoreNorm]

theorem run_norm {α : Type} (es : List (Event α)) (g : GlobalState α)
    (h : g = initialState ∨ StoreNorm g) :
    run g es = initialState ∨ StoreNorm (run g es) := by
  induction es generalizing g with
  | nil => simpa [run] using h
  | cons e es ih =>
      rw [run]
      exact ih _ (Or.inr (step_norm g e h))

theorem reachable_norm {α : Type} (g : GlobalState α) (h : Reachable g) :
    g = initialState ∨ StoreNorm g := by
  obtain ⟨es, he⟩ := h
  rw [← he]
  exact run_norm es initialState (Or.inl rfl)

theorem phase_initial {α : Type} : phase (initialState (α := α)) = Phase.unloaded := rfl

/-- A loaded phase forces the store shape `some ⟨some a, false⟩`. -/
theorem phase_loaded_shape {α : Type} (g : GlobalState α)
    (h : phase g = Phase.loaded) :
    ∃ a, g.store = some ⟨some a, false⟩ := by
  rcases hs : g.store with _ | m
  · rw [phase, hs] at h; cases h
  · rcases m with ⟨c, p⟩
    cases p with
    | true => rw [phase, hs] at h; simp at h
    | false =>
        cases c with
        | none => rw [phase, hs] at h; simp at h
        | some a => exact ⟨a, rfl⟩

/-- A poisoned phase forces a store with a poisoned mutex. -/
theorem phase_poisoned_shape {α : Type} (g : GlobalState α)
    (h : phase g = Phase.poisoned) :
    ∃ c, g.store = some ⟨c, true⟩ := by
  rcases hs : g.store with _ | m
  · rw [phase, hs] at h; cases h
  · rcases m with ⟨c, p⟩
    cases p with
    | true => exact ⟨c, rfl⟩
    | false =>
        rw [phase, hs] at h
        cases c <;> simp at h

/-- `print_on_return` holds exactly on the `GenericError` variant. -/
theorem print_on_return_eq (e : Error) : e.print_on_return = isGenericError e := by
  cases e <;> rfl

/-- C1: after the store has been poisoned by an intercepted panic, every
invocation of the builtin entry function reports the internal-state error
and returns the failure code 1 without invoking the instance's call logic
(the result is independent of the call outcome and the state is untouched);
the phases reachable by the lifecycle step relation are exactly
{Unloaded, Loaded, Poisoned}, and a step maps Loaded to Poisoned only on an
intercepted abnormal termination (a panic inside `call` or inside the
constructor run by `load`). -/
theorem C1_lifecycle_poison :
    (∀ (g : GlobalState Unit) (o : CallOutcome), Reachable g →
        phase g = Phase.poisoned →
        (call g o).code = 1 ∧ (call g o).code ≠ 0 ∧
          (call g o).logs = [LogMsg.invalidInternalState] ∧
          (call g o).state = g ∧
          ∀ o' : CallOutcome, call g o' = call g o)
  ∧ (∀ (g : GlobalState Unit) (e : Event Unit), phase g = Phase.loaded →
        phase (step g e).state = Phase.poisoned →
        e = Event.callEv CallOutcome.panicked ∨
          e = Event.loadEv CtorOutcome.panicked)
  ∧ (∀ p : Phase, ∃ es : List (Event Unit),
        phase (run initialState es) = p) := by
  refine ⟨?_, ?_, ?_⟩
  · intro g o hR hP
    rcases reachable_norm g hR with h | ⟨hI, _, _⟩
    · rw [h, phase_initial] at hP; cases hP
    · obtain ⟨c, hsp⟩ := phase_poisoned_shape g hP
      refine ⟨?_, ?_, ?_, ?_, ?_⟩ <;>
        simp [call, global_state_upd, global_state_leak, mutexOf, hI, hsp]
  · intro g e hL hP2
    obtain ⟨a, hs⟩ := phase_loaded_shape g hL
    cases e with
    | loadEv c =>
        cases c with
        | ok b =>
            exfalso
            by_cases hI : g.initFlag <;>
              simp [step, load, global_state_upd, mutexOf, hI, hs, phase] at hP2
        | fail =>
            exfalso
            by_cases hI : g.initFlag <;>
              simp [step, load, global_state_upd, mutexOf, hI, hs, phase] at hP2
        | panicked => exact Or.inr rfl
    | callEv o =>
        cases o with
        | ok =>
            exfalso
            by_cases hI : g.initFlag <;>
              simp [step, call, global_state_upd, mutexOf, hI, hs, phase] at hP2
        | err e2 =>
            exfalso
            by_cases hI : g.initFlag <;>
              simp [step, call, global_state_upd, mutexOf, hI, hs, phase] at hP2
        | panicked => exact Or.inl rfl
    | unloadEv =>
        exfalso
        simp [step, unload, global_state_upd, mutexOf, phase] at hP2
  · intro p
    cases p with
    | unloaded => exact ⟨[], by decide⟩
    | loaded => exact ⟨[Event.loadEv (CtorOutcome.ok ())], by decide⟩
    | poisoned =>
        exact ⟨[Event.loadEv (CtorOutcome.ok ()),
                Event.callEv CallOutcome.panicked], by decide⟩

/-- Witness for C1 at a concrete poisoned trace. -/
theorem C1_lifecycle_poison_witness :
    ((call (run (initialState (α := Unit))
        [Event.loadEv (CtorOutcome.ok ()), Event.callEv CallOutcome.panicked])
        CallOutcome.ok).code = 1 ∧
     (call (run (initialState (α := Unit))
        [Event.loadEv (CtorOutcome.ok ()), Event.callEv CallOutcome.panicked])
        CallOutcome.ok).logs = [LogMsg.invalidInternalState]) ∧
    (Event.callEv CallOutcome.panicked = Event.callEv (α := Unit) CallOutcome.panicked ∨
     Event.callEv CallOutcome.panicked = Event.loadEv (α := Unit) CtorOutcome.panicked) := by
  have h1 := C1_lifecycle_poison.1
    (run initialState [Event.loadEv (CtorOutcome.ok ()),
      Event.callEv CallOutcome.panicked])
    CallOutcome.ok
    ⟨[Event.loadEv (CtorOutcome.ok ()), Event.callEv CallOutcome.panicked], rfl⟩
    (by decide)
  have h2 := C1_lifecycle_poison.2.1
    (run initialState [Event.loadEv (CtorOutcome.ok ())])
    (Event.callEv CallOutcome.panicked)
    (by decide) (by decide)
  exact ⟨⟨h1.1, h1.2.2.1⟩, h2⟩

/-- C2: with a loaded, non-poisoned instance, the builtin entry function
maps `Ok(())` to exit code 0, `Err(Usage)` to 258, `Err(ExitCode(n))` to
`n`, `Err(GenericError(_))` to 1, and an intercepted panic to 101. -/
theorem C2_exit_codes (g : GlobalState Unit) (hI : g.initFlag = true)
    (hL : phase g = Phase.loaded) :
    (call g CallOutcome.ok).code = 0
  ∧ (call g (CallOutcome.err Error.Usage)).code = 258
  ∧ (∀ n : Int, (call g (CallOutcome.err (Error.ExitCode n))).code = n)
  ∧ (∀ s : String, (call g (CallOutcome.err (Error.GenericError s))).code = 1)
  ∧ (call g CallOutcome.panicked).code = 101 := by
  obtain ⟨a, hs⟩ := phase_loaded_shape g hL
  refine ⟨?_, ?_, ?_, ?_, ?_⟩ <;>
    (intros;
     simp [call, global_state_upd, global_state_leak, mutexOf, hI, hs,
       Error.exit_code, EX_USAGE, EXECUTION_FAILURE])

/-- Witness for C2 at the state reached by a successful load. -/
theorem C2_exit_codes_witness :
    (call (load (initialState (α := Unit)) (CtorOutcome.ok ())).state
      (CallOutcome.err (Error.ExitCode 37))).code = 37 := by
  have h := C2_exit_codes (load (initialState (α := Unit)) (CtorOutcome.ok ())).state
    (by decide) (by decide)
  exact h.2.2.1 37

/-- C7: the dispatch wrapper prints the error returned by `Builtin::call`
to the host's error stream exactly when it is a `GenericError`; `Usage` and
`ExitCode` results produce no printed diagnostic there, nor do a success or
an intercepted panic. -/
theorem C7_print_policy (g : GlobalState Unit) (hI : g.initFlag = true)
    (hL : phase g = Phase.loaded) :
    (∀ e : Error, (call g (CallOutcome.err e)).logs =
        (if isGenericError e then [LogMsg.printedError e] else []))
  ∧ (call g CallOutcome.ok).logs = []
  ∧ (call g CallOutcome.panicked).logs = [] := by
  obtain ⟨a, hs⟩ := phase_loaded_shape g hL
  refine ⟨?_, ?_, ?_⟩ <;>
    (intros;
     simp [call, global_state_upd, global_state_leak, mutexOf, hI, hs,
       print_on_return_eq])

/-- Witness for C7 at the state reached by a successful load. -/
theorem C7_print_policy_witness :
    (call (load (initialState (α := Unit)) (CtorOutcome.ok ())).state
      (CallOutcome.err (Error.GenericError "boom"))).logs =
      [LogMsg.printedError (Error.GenericError "boom")] ∧
    (call (load (initialState (α := Unit)) (CtorOutcome.ok ())).state
      (CallOutcome.err Error.Usage)).logs = [] := by
  have h := C7_print_policy (load (initialState (α := Unit)) (CtorOutcome.ok ())).state
    (by decide) (by decide)
  refine ⟨?_, ?_⟩
  · have := h.1 (Error.GenericError "boom")
    simpa [isGenericError] using this
  · have := h.1 Error.Usage
    simpa [isGenericError] using this

/-- C3 (failing-input evaluation): after a successful load the store is
loaded and not poisoned, yet `unload` runs no release logic at all — the
generated unload clears the init flag before calling `#global_state()`,
which therefore overwrites `STATE` with a fresh store, leaking the
instance; the `Ok` arm then assigns `None` over an already-empty store.
The claimed non-poisoned release path drops nothing (`dropped = []`), the
instance is leaked (`leaked = [7]`), and the init flag ends up set again
rather than cleared. -/
theorem C3_unload_leak_eval :
    phase (load (initialState (α := Nat)) (CtorOutcome.ok 7)).state = Phase.loaded
  ∧ (mutexOf (load (initialState (α := Nat)) (CtorOutcome.ok 7)).state).poisoned = false
  ∧ (unload (load (initialState (α := Nat)) (CtorOutcome.ok 7)).state).dropped = []
  ∧ (unload (load (initialState (α := Nat)) (CtorOutcome.ok 7)).state).leaked = [7]
  ∧ (unload (load (initialState (α := Nat)) (CtorOutcome.ok 7)).state).state.initFlag = true
  ∧ phase (unload (load (initialState (α := Nat)) (CtorOutcome.ok 7)).state).state
      = Phase.unloaded := by
  decide

/-! ### Option schema -/

theorem options_entries_spec (vs : List Opts.VariantOption) :
    Opts.options_entries vs = Opts.specConcat vs := by
  induction vs with
  | nil => rfl
  | cons v vs ih =>
      rcases v with ⟨c, at?⟩
      cases at? with
      | none =>
          simp [Opts.options_entries, Opts.specConcat, Opts.specDescriptorBytes, ih]
      | some t =>
          cases t <;>
            simp [Opts.options_entries, Opts.specConcat, Opts.specDescriptorBytes,
              Opts.OPTSTR_ARGUMENT, ih]

theorem options_entries_len (vs : List Opts.VariantOption) :
    (Opts.options_entries vs).length
      = (vs.map (fun v => 1 + (if v.argument_type.isSome then 1 else 0))).sum := by
  induction vs with
  | nil => rfl
  | cons v vs ih =>
      rcases v with ⟨c, at?⟩
      cases at? <;> simp [Opts.options_entries, ih] <;> omega

/-- C5: for every schema of descriptors with unique ASCII-alphanumeric
flags, the generated parser string is, in descriptor order, each flag byte
followed by `':'` (58) for a required payload or `';'` (59) for an optional
one (nothing for a payload-less flag) — the generated byte array being that
string plus its NUL terminator — and its length is the sum over descriptors
of `1 + (1 if the descriptor has a payload else 0)`. -/
theorem C5_options_string (vs : List Opts.VariantOption)
    (_hnodup : (vs.map Opts.VariantOption.option).Nodup)
    (_halnum : ∀ v ∈ vs, Opts.isAsciiAlphanumeric v.option = true) :
    Opts.options_entries vs = Opts.specConcat vs
  ∧ Opts.options_string vs = Opts.specConcat vs ++ [0]
  ∧ (Opts.options_entries vs).length
      = (vs.map (fun v => 1 + (if v.argument_type.isSome then 1 else 0))).sum := by
  refine ⟨options_entries_spec vs, ?_, options_entries_len vs⟩
  rw [Opts.options_string, options_entries_spec vs]

/-- Witness for C5 on the schema {e: required, f: optional, v: no payload}. -/
theorem C5_options_string_witness :
    Opts.options_string
        [⟨'e', some Opts.ArgTy.plain⟩, ⟨'f', some (Opts.ArgTy.opt Opts.ArgTy.plain)⟩,
         ⟨'v', none⟩]
      = [101, 58, 102, 59, 118, 0] ∧
    (Opts.options_entries
        [⟨'e', some Opts.ArgTy.plain⟩, ⟨'f', some (Opts.ArgTy.opt Opts.ArgTy.plain)⟩,
         ⟨'v', none⟩]).length = 5 := by
  have h := C5_options_string
    [⟨'e', some Opts.ArgTy.plain⟩, ⟨'f', some (Opts.ArgTy.opt Opts.ArgTy.plain)⟩,
     ⟨'v', none⟩]
    (by decide) (by decide)
  exact ⟨by rw [h.2.1]; rfl, by rw [h.2.2]; rfl⟩

/-! ### Payload decoding -/

/-- C6: decoding a required payload from an absent raw argument produces
exactly one missing-argument notification and yields `Usage`; decoding an
`Option`-wrapped payload from an absent raw argument yields `None` with no
diagnostics; and a present payload whose inner conversion fails produces
exactly one diagnostic and yields `Usage`. -/
theorem C6_payload_decoding {α : Type} (f : List Nat → Except String α) :
    (Conv.extract_value_default f none
        = ([Conv.Diag.missingArgument], Except.error Error.Usage)
      ∧ (Conv.extract_value_default f none).1.length = 1)
  ∧ (Conv.extract_value_option f none = ([], Except.ok none)
      ∧ (Conv.extract_value_option f none).1.length = 0)
  ∧ (∀ (a : List Nat) (e : String), f a = Except.error e →
      Conv.extract_value_option f (some a)
          = ([Conv.Diag.convErrorMsg a e], Except.error Error.Usage)
        ∧ (Conv.extract_value_option f (some a)).1.length = 1) := by
  refine ⟨⟨rfl, rfl⟩, ⟨rfl, rfl⟩, ?_⟩
  intro a e h
  constructor <;> simp [Conv.extract_value_option, h]

/-- Witness for C6 with a converter that rejects its input. -/
theorem C6_payload_decoding_witness :
    Conv.extract_value_option (fun _ : List Nat => (Except.error "bad" : Except String Nat))
        (some [97])
      = ([Conv.Diag.convErrorMsg [97] "bad"], Except.error Error.Usage) := by
  exact ((C6_payload_decoding (fun _ : List Nat => (Except.error "bad" : Except String Nat))).2.2
    [97] "bad" rfl).1

/-! ### Argument cursor reset -/

theorem runOps_pending_false (g : ArgsCursor.GetoptGlobals) (ops : List ArgsCursor.ArgsOp) :
    ArgsCursor.runOps (⟨false⟩, g) ops = (⟨false⟩, g) := by
  induction ops with
  | nil => rfl
  | cons op ops ih =>
      have h : ArgsCursor.applyOp (⟨false⟩, g) op = (⟨false⟩, g) := by
        simp [ArgsCursor.applyOp, ArgsCursor.ensure_reset]
      rw [ArgsCursor.runOps, h, ih]

theorem runOps_resetEvents (g : ArgsCursor.GetoptGlobals) (ops : List ArgsCursor.ArgsOp) :
    (ArgsCursor.runOps (ArgsCursor.ArgsM.new, g) ops).2.resetEvents
      = g.resetEvents + (if ops.any ArgsCursor.callsEnsureReset then 1 else 0) := by
  induction ops with
  | nil => simp [ArgsCursor.runOps]
  | cons op ops ih =>
      by_cases hc : ArgsCursor.callsEnsureReset op
      · rw [ArgsCursor.runOps]
        have h : ArgsCursor.applyOp (ArgsCursor.ArgsM.new, g) op
            = (⟨false⟩, ⟨g.resetEvents + 1, none, 0⟩) := by
          simp [ArgsCursor.applyOp, ArgsCursor.ensure_reset, ArgsCursor.ArgsM.new, hc]
        rw [h, runOps_pending_false]
        simp [hc]
      · rw [ArgsCursor.runOps]
        have h : ArgsCursor.applyOp (ArgsCursor.ArgsM.new, g) op
            = (ArgsCursor.ArgsM.new, g) := by
          simp [ArgsCursor.applyOp, hc]
        rw [h, ih]
        simp [hc]

/-- C8: over any sequence of operations on one `Args` instance, the host's
global option-scanner state is reset exactly once when the sequence uses
the options or argument-iteration operations at all (and never otherwise),
and once some prefix has used them, the remaining operations perform no
further reset. -/
theorem C8_reset_once :
    (∀ (g : ArgsCursor.GetoptGlobals) (ops : List ArgsCursor.ArgsOp),
        (ArgsCursor.runOps (ArgsCursor.ArgsM.new, g) ops).2.resetEvents
          = g.resetEvents + (if ops.any ArgsCursor.callsEnsureReset then 1 else 0))
  ∧ (∀ (g : ArgsCursor.GetoptGlobals) (xs ys : List ArgsCursor.ArgsOp),
        xs.any ArgsCursor.callsEnsureReset = true →
        (ArgsCursor.runOps (ArgsCursor.ArgsM.new, g) (xs ++ ys)).2.resetEvents
          = (ArgsCursor.runOps (ArgsCursor.ArgsM.new, g) xs).2.resetEvents) := by
  refine ⟨runOps_resetEvents, ?_⟩
  intro g xs ys hx
  rw [runOps_resetEvents, runOps_resetEvents, List.any_append, hx]
  simp

/-- Witness for C8: an `options` pass followed by argument iteration resets
only once. -/
theorem C8_reset_once_witness :
    (ArgsCursor.runOps (ArgsCursor.ArgsM.new, ⟨0, none, 0⟩)
        ([ArgsCursor.ArgsOp.options] ++ [ArgsCursor.ArgsOp.rawArguments])).2.resetEvents
      = (ArgsCursor.runOps (ArgsCursor.ArgsM.new, ⟨0, none, 0⟩)
          [ArgsCursor.ArgsOp.options]).2.resetEvents := by
  exact C8_reset_once.2 ⟨0, none, 0⟩ [ArgsCursor.ArgsOp.options]
    [ArgsCursor.ArgsOp.rawArguments] (by decide)

/-! ### Dynamic-variable read trampoline -/

/-- C4: with the dynamic-variable table initialized, a read through the
trampoline whose table lookup succeeds and whose get handler returns
without fault frees the previous backing storage and installs a freshly
allocated copy of the returned bytes (a one-byte zeroed allocation when the
handler returns none); on an intercepted handler panic or a missing
binding, the backing storage is left untouched and the host's
internal-error facility is notified once. -/
theorem C4_read_trampoline (st : DynVars.ReadState)
    (hinit : st.stateInit = true)
    (hheap : ∀ p ∈ st.heap, p.1 < st.nextId)
    (hcur : st.storeId < st.nextId) :
    (∀ s : List Nat, st.binding = some (DynVars.GetOutcome.value s) →
        DynVars.read_var st =
          { st with
            freed := st.freed ++ [st.storeId]
            storeId := st.nextId
            heap := st.heap ++ [(st.nextId, s ++ [0])]
            nextId := st.nextId + 1 }
      ∧ st.storeId ∈ (DynVars.read_var st).freed
      ∧ (DynVars.read_var st).storeId ∉ st.heap.map Prod.fst
      ∧ (DynVars.read_var st).storeId ≠ st.storeId
      ∧ ((DynVars.read_var st).storeId, s ++ [0]) ∈ (DynVars.read_var st).heap
      ∧ (DynVars.read_var st).internalErrors = st.internalErrors)
  ∧ (st.binding = some DynVars.GetOutcome.empty →
        DynVars.read_var st =
          { st with
            freed := st.freed ++ [st.storeId]
            storeId := st.nextId
            heap := st.heap ++ [(st.nextId, [0])]
            nextId := st.nextId + 1 }
      ∧ ((DynVars.read_var st).storeId, [0]) ∈ (DynVars.read_var st).heap)
  ∧ ((st.binding = none ∨ st.binding = some DynVars.GetOutcome.panicked) →
        (DynVars.read_var st).storeId = st.storeId
      ∧ (DynVars.read_var st).heap = st.heap
      ∧ (DynVars.read_var st).freed = st.freed
      ∧ (DynVars.read_var st).internalErrors = st.internalErrors + 1) := by
  refine ⟨?_, ?_, ?_⟩
  · intro s hb
    have hrv : DynVars.read_var st =
        { st with
          freed := st.freed ++ [st.storeId]
          storeId := st.nextId
          heap := st.heap ++ [(st.nextId, s ++ [0])]
          nextId := st.nextId + 1 } := by
      simp [DynVars.read_var, hinit, hb]
    refine ⟨hrv, ?_, ?_, ?_, ?_, ?_⟩ <;> rw [hrv]
    · simp
    · intro hmem
      simp only [List.mem_map] at hmem
      obtain ⟨p, hp, hpe⟩ := hmem
      have := hheap p hp
      omega
    · show st.nextId ≠ st.storeId
      omega
    · simp
  · intro hb
    have hrv : DynVars.read_var st =
        { st with
          freed := st.freed ++ [st.storeId]
          storeId := st.nextId
          heap := st.heap ++ [(st.nextId, [0])]
          nextId := st.nextId + 1 } := by
      simp [DynVars.read_var, hinit, hb]
    refine ⟨hrv, ?_⟩
    rw [hrv]
    simp
  · intro hb
    rcases hb with hb | hb <;> simp [DynVars.read_var, hinit, hb]

/-- Witness for C4 at concrete read states for each branch. -/
theorem C4_read_trampoline_witness :
    DynVars.read_var ⟨true, some (DynVars.GetOutcome.value [104, 105]), 0, [(0, [0])], [], 1, 0⟩
      = ⟨true, some (DynVars.GetOutcome.value [104, 105]), 1,
          [(0, [0]), (1, [104, 105, 0])], [0], 2, 0⟩ ∧
    (DynVars.read_var ⟨true, none, 0, [(0, [0])], [], 1, 0⟩).internalErrors = 1 := by
  have h1 := (C4_read_trampoline
      ⟨true, some (DynVars.GetOutcome.value [104, 105]), 0, [(0, [0])], [], 1, 0⟩
      rfl (by decide) (by decide)).1 [104, 105] rfl
  have h2 := (C4_read_trampoline ⟨true, none, 0, [(0, [0])], [], 1, 0⟩
      rfl (by decide) (by decide)).2.2 (Or.inl rfl)
  exact ⟨h1.1, h2.2.2.2⟩

/-! ### Indexed-array iteration -/

theorem array_items_from_spec (h : Arrays.HeapA) (sentinel : Nat) :
    ∀ (ids : List Nat) (fuel cur : Nat),
      Arrays.ring_chain h sentinel cur ids = true → ids.length ≤ fuel →
      Arrays.array_items_from h sentinel fuel cur
        = ids.map (fun i => ((h i).ind, (h i).value)) := by
  intro ids
  induction ids with
  | nil =>
      intro fuel cur hc _
      have hcur : cur = sentinel := by simpa [Arrays.ring_chain] using hc
      cases fuel with
      | zero => simp [Arrays.array_items_from]
      | succ f => simp [Arrays.array_items_from, hcur]
  | cons i is ih =>
      intro fuel cur hc hf
      simp only [Arrays.ring_chain, Bool.and_eq_true, beq_iff_eq,
        Bool.not_eq_eq_eq_not, Bool.not_true, beq_eq_false_iff_ne] at hc
      obtain ⟨⟨hcur, hne⟩, hrest⟩ := hc
      cases fuel with
      | zero => simp at hf
      | succ f =>
          subst hcur
          simp only [Arrays.array_items_from, if_neg hne, List.map_cons]
          rw [ih f _ hrest (by simpa using hf)]

/-- C9: the head-field convention is chosen by a memoized once-per-process
version probe — once done, later calls never re-probe; a fresh probe picks
`lastref` exactly for a `"5.0."`-prefixed version line and `head` for every
other version — and iterating from the element after the sentinel yields
each `(index, value)` pair of the ring in order until the sentinel recurs;
in particular a ring holding exactly the indices 0 and 2 is enumerated as
index 0 then index 2 under either convention. -/
theorem C9_array_iteration :
    (∀ (p : Arrays.VersionProbe) (shver : List Nat), p.initDone = true →
        Arrays.probe_version p shver = (p, p.is_5_0))
  ∧ (∀ (b0 : Bool) (shver : List Nat) (a : Arrays.ArrayM),
        Arrays.array_head (Arrays.probe_version ⟨b0, false⟩ shver).2 a
          = (if Arrays.starts_with_5_0 shver then a.lastref else a.head))
  ∧ (∀ (h : Arrays.HeapA) (is50 : Bool) (a : Arrays.ArrayM) (ids : List Nat)
        (fuel : Nat),
        Arrays.ring_chain h (Arrays.array_head is50 a)
            (h (Arrays.array_head is50 a)).next ids = true →
        ids.length ≤ fuel →
        Arrays.array_items h is50 a fuel
          = ids.map (fun i => ((h i).ind, (h i).value)))
  ∧ (∀ (h : Arrays.HeapA) (is50 : Bool) (a : Arrays.ArrayM) (i0 i2 : Nat)
        (fuel : Nat),
        Arrays.ring_chain h (Arrays.array_head is50 a)
            (h (Arrays.array_head is50 a)).next [i0, i2] = true →
        (h i0).ind = 0 → (h i2).ind = 2 → 2 ≤ fuel →
        Arrays.array_items h is50 a fuel
          = [(0, (h i0).value), (2, (h i2).value)]) := by
  have hiter : ∀ (h : Arrays.HeapA) (is50 : Bool) (a : Arrays.ArrayM)
      (ids : List Nat) (fuel : Nat),
      Arrays.ring_chain h (Arrays.array_head is50 a)
          (h (Arrays.array_head is50 a)).next ids = true →
      ids.length ≤ fuel →
      Arrays.array_items h is50 a fuel
        = ids.map (fun i => ((h i).ind, (h i).value)) := by
    intro h is50 a ids fuel hc hf
    rw [Arrays.array_items]
    exact array_items_from_spec h _ ids fuel _ hc hf
  refine ⟨?_, ?_, hiter, ?_⟩
  · intro p shver hdone
    simp [Arrays.probe_version, hdone]
  · intro b0 shver a
    simp [Arrays.probe_version, Arrays.array_head]
  · intro h is50 a i0 i2 fuel hc h0 h2 hf
    rw [hiter h is50 a [i0, i2] fuel hc (by simpa using hf)]
    simp [h0, h2]

/-- Witness for C9 on a concrete two-element ring under both conventions. -/
theorem C9_array_iteration_witness :
    Arrays.array_items Arrays.exampleHeap false ⟨0, 2, 2, 10, 99⟩ 5
      = [(0, [65]), (2, [66])] ∧
    Arrays.array_items Arrays.exampleHeap true ⟨0, 2, 2, 99, 10⟩ 5
      = [(0, [65]), (2, [66])] ∧
    Arrays.probe_version ⟨true, true⟩ [54, 46] = (⟨true, true⟩, true) := by
  refine ⟨?_, ?_, ?_⟩
  · have h := C9_array_iteration.2.2.2 Arrays.exampleHeap false ⟨0, 2, 2, 10, 99⟩
      1 2 5 (by decide) (by decide) (by decide) (by decide)
    simpa [Arrays.exampleHeap] using h
  · have h := C9_array_iteration.2.2.2 Arrays.exampleHeap true ⟨0, 2, 2, 99, 10⟩
      1 2 5 (by decide) (by decide) (by decide) (by decide)
    simpa [Arrays.exampleHeap] using h
  · exact C9_array_iteration.1 ⟨true, true⟩ [54, 46] rfl

/-! ### Associative-array key comparison -/

/-- C10: `assoc_get` compares the queried key with `strncmp` bounded by the
query's length only, so a query that is a prefix of a stored key compares
equal; in particular, on an associative array whose first visited entry has
stored key `"abcd"`, querying `"abc"` returns that entry's value rather
than absent. -/
theorem C10_assoc_prefix_match :
    (∀ q k : List Nat, List.isPrefixOf q k = true →
        Assoc.strncmp q.length q k = 0)
  ∧ (∀ v : List Nat,
      Assoc.assoc_get
          [("A", ⟨Assoc.ATT_ASSOC, Assoc.VarValueM.assocV [[([97, 98, 99, 100], v)]]⟩)]
          "A" [97, 98, 99]
        = some v) := by
  constructor
  · intro q
    induction q with
    | nil => intro k _; rfl
    | cons a q ih =>
        intro k h
        cases k with
        | nil => simp [List.isPrefixOf] at h
        | cons b k =>
            simp only [List.isPrefixOf, Bool.and_eq_true, beq_iff_eq] at h
            obtain ⟨hab, hpre⟩ := h
            subst hab
            by_cases ha : a = 0
            · simp [Assoc.strncmp, Assoc.byte_head, Assoc.byte_tail, ha]
            · simp [Assoc.strncmp, Assoc.byte_head, Assoc.byte_tail, ha, ih k hpre]
  · intro v
    simp [Assoc.assoc_get, Assoc.find_variable, Assoc.is_assoc, Assoc.ATT_ASSOC,
      Assoc.assoc_items, Assoc.strncmp, Assoc.byte_head, Assoc.byte_tail]

/-- Witness for C10: the query `"abc"` against the stored key `"abcd"`. -/
theorem C10_assoc_prefix_match_witness :
    Assoc.strncmp 3 [97, 98, 99] [97, 98, 99, 100] = 0 ∧
    Assoc.assoc_get
        [("A", ⟨Assoc.ATT_ASSOC, Assoc.VarValueM.assocV [[([97, 98, 99, 100], [120])]]⟩)]
        "A" [97, 98, 99]
      = some [120] := by
  refine ⟨?_, C10_assoc_prefix_match.2 [120]⟩
  have h := C10_assoc_prefix_match.1 [97, 98, 99] [97, 98, 99, 100] (by decide)
  simpa using h

end BashBuiltins
